import Mathlib

/-!
Verification of the gnucash-qif-import core (src/qif.py and src/import.py)
against its natural-language specification.

The Python sources are shallowly embedded below.  Python exceptions are
modelled with `Except PyError`; `decimal.Decimal` values are modelled by the
scaled-integer type `Dec` (numeric equality is `Dec.eqv`, matching Python's
value equality on Decimal); `datetime.datetime` / `datetime.date` become the
`DateTime` / `Date` structures.  All functions are structurally recursive so
that concrete runs reduce by `rfl` / `decide`.
-/

/-- Python runtime exceptions that the embedded code can raise. -/
inductive PyError where
  | typeError
  | valueError
  | keyError
  | indexError
  | attributeError
  | invalidOperation
  | reError
  deriving DecidableEq, Repr

/-- A calendar date, the result of `datetime.date()`. -/
structure Date where
  year : Int
  month : Nat
  day : Nat
  deriving DecidableEq, Repr

/-- A `datetime.datetime` value; `parse_qif` always builds midnight times. -/
structure DateTime where
  year : Int
  month : Nat
  day : Nat
  hour : Nat
  minute : Nat
  second : Nat
  deriving DecidableEq, Repr

/-- Model of Python `datetime.datetime.date()`: discard the time of day. -/
def DateTime.date (dt : DateTime) : Date :=
  { year := dt.year, month := dt.month, day := dt.day }

/-- Model of `decimal.Decimal`: the value `num / 10 ^ exp`.  The scale is kept
so that distinct textual forms stay distinct structurally, as in Python. -/
structure Dec where
  num : Int
  exp : Nat
  deriving DecidableEq, Repr

/-- Python `Decimal.__neg__` (also `-1 * d`). -/
def Dec.neg (a : Dec) : Dec := { num := -a.num, exp := a.exp }

/-- Python `Decimal.__eq__`: numeric value equality, ignoring the scale. -/
def Dec.eqv (a b : Dec) : Bool :=
  a.num * (10 : Int) ^ b.exp == b.num * (10 : Int) ^ a.exp

/-- Strip leading and trailing whitespace from a character list
(Python `str.strip()`). -/
def trimChars (cs : List Char) : List Char :=
  ((cs.dropWhile Char.isWhitespace).reverse.dropWhile Char.isWhitespace).reverse

/-- Split a character list at every occurrence of `sep`
(Python `str.split(sep)` for a one-character separator). -/
def splitChar (sep : Char) : List Char → List (List Char)
  | [] => [[]]
  | c :: rest =>
    let r := splitChar sep rest
    if c = sep then [] :: r
    else
      match r with
      | [] => [[c]]
      | g :: gs => (c :: g) :: gs

/-- Digits of a decimal numeral to a natural number; `none` when the list is
empty or contains a non-digit. -/
def digitsToNat (ds : List Char) : Option Nat :=
  if ds.isEmpty then none
  else ds.foldlM (fun acc c => if c.isDigit then some (acc * 10 + (c.toNat - 48)) else none) 0

/-- Value of a checked digit list (used once all characters are known digits). -/
def natOfDigits (ds : List Char) : Nat :=
  ds.foldl (fun acc c => acc * 10 + (c.toNat - 48)) 0

/-- Model of Python `int(s)`: optional surrounding whitespace, optional sign,
then a non-empty digit string; anything else raises `ValueError` (`none`). -/
def parsePyInt (s : String) : Option Int :=
  match trimChars s.data with
  | '-' :: ds => (digitsToNat ds).map (fun n => -(n : Int))
  | '+' :: ds => (digitsToNat ds).map (fun n => (n : Int))
  | ds => (digitsToNat ds).map (fun n => (n : Int))

/-- Split at the single decimal point, if any; `none` when more than one
point is present. -/
def splitDot : List Char → Option (List Char × List Char)
  | [] => some ([], [])
  | '.' :: rest => if rest.contains '.' then none else some ([], rest)
  | c :: rest => (splitDot rest).map (fun p => (c :: p.1, p.2))

/-- Model of the `decimal.Decimal` constructor on the strings this program
feeds it: optional whitespace and sign, digits with at most one decimal
point, at least one digit overall.  `none` models `InvalidOperation`. -/
def parseDecimal (s : String) : Option Dec :=
  let cs := trimChars s.data
  let signAndDigits : Int × List Char :=
    match cs with
    | '-' :: rest => (-1, rest)
    | '+' :: rest => (1, rest)
    | rest => (1, rest)
  match splitDot signAndDigits.2 with
  | none => none
  | some (ipart, fpart) =>
    if ipart.isEmpty ∧ fpart.isEmpty then none
    else if ipart.all Char.isDigit ∧ fpart.all Char.isDigit then
      some { num := signAndDigits.1 * ((natOfDigits ipart * 10 ^ fpart.length + natOfDigits fpart : Nat) : Int),
             exp := fpart.length }
    else none

/-- Python `s.replace(",", "")`, used before every Decimal parse. -/
def stripCommas (s : String) : String :=
  String.mk (s.data.filter (fun c => c != ','))

/-- Whether year `y` is a leap year (Python `calendar`/`datetime` rule). -/
def isLeap (y : Int) : Bool :=
  y % 4 == 0 && (y % 100 != 0 || y % 400 == 0)

/-- Days in month `m` of year `y`. -/
def daysInMonth (y : Int) (m : Nat) : Nat :=
  if m = 2 then (if isLeap y then 29 else 28)
  else if m = 4 ∨ m = 6 ∨ m = 9 ∨ m = 11 then 30
  else 31

/-- Model of the `datetime.datetime(year, month, day)` constructor: validates
the ranges (`MINYEAR = 1`, `MAXYEAR = 9999`) and raises `ValueError`
(`none`) on an invalid calendar date. -/
def mkDatetime (y m d : Int) : Option DateTime :=
  if 1 ≤ y ∧ y ≤ 9999 ∧ 1 ≤ m ∧ m ≤ 12 ∧ 1 ≤ d ∧ d ≤ (daysInMonth y m.toNat : Int) then
    some { year := y, month := m.toNat, day := d.toNat, hour := 0, minute := 0, second := 0 }
  else none

/-- The record class `QifItem` of src/qif.py: every field starts as `None`. -/
structure QifItem where
  type : Option String := none
  date : Option DateTime := none
  account : Option String := none
  amount : Option Dec := none
  cleared : Option String := none
  num : Option String := none
  payee : Option String := none
  memo : Option String := none
  address : Option String := none
  category : Option String := none
  split_category : Option String := none
  split_memo : Option String := none
  split_amount : Option Dec := none
  deriving DecidableEq, Repr

/-- The loop state of `parse_qif` (src/qif.py lines 66-68): the carried
account name, the record under construction, and the emitted records. -/
structure QState where
  account : Option String := none
  curItem : QifItem := {}
  items : List QifItem := []
  deriving DecidableEq, Repr

/-- The dispatch on the first character in the `parse_qif` loop body
(src/qif.py lines 70-109), given the first character and the stripped rest
of the line (`data = line[1:].strip()`).  The final `else` models the
Python-2 statement `print >> sys.stderr, ...` which under Python 3 raises
`TypeError`. -/
def stepData (st : QState) (firstchar : Char) (data : String) : Except PyError QState :=
    if firstchar = '\n' then .ok st
    else if firstchar = '^' then
      .ok { account := st.account,
            curItem := { account := st.account },
            items := if st.curItem.type ≠ some "Account" then st.items ++ [st.curItem] else st.items }
    else if firstchar = 'D' then
      match (splitChar '/' data.data).mapM (fun p => parsePyInt (String.mk p)) with
      | some [day, month, year] =>
        match mkDatetime year month day with
        | some dt => .ok { st with curItem := { st.curItem with date := some dt } }
        | none => .error .valueError
      | _ => .error .valueError
    else if firstchar = 'T' then
      match parseDecimal (stripCommas data) with
      | some q => .ok { st with curItem := { st.curItem with amount := some q } }
      | none => .error .invalidOperation
    else if firstchar = 'C' then .ok { st with curItem := { st.curItem with cleared := some data } }
    else if firstchar = 'P' then .ok { st with curItem := { st.curItem with payee := some data } }
    else if firstchar = 'M' then .ok { st with curItem := { st.curItem with memo := some data } }
    else if firstchar = 'A' then .ok { st with curItem := { st.curItem with address := some data } }
    else if firstchar = 'L' then .ok { st with curItem := { st.curItem with category := some data } }
    else if firstchar = 'S' then .ok { st with curItem := { st.curItem with split_category := some data } }
    else if firstchar = 'E' then .ok { st with curItem := { st.curItem with split_memo := some data } }
    else if firstchar = '$' then
      match parseDecimal (stripCommas data) with
      | some q => .ok { st with curItem := { st.curItem with split_amount := some q } }
      | none => .error .invalidOperation
    else if firstchar = 'N' then
      .ok (if st.curItem.type = some "Account" then { st with account := some data } else st)
    else if firstchar = '!' then .ok { st with curItem := { st.curItem with type := some data } }
    else .error .typeError

/-- One iteration of the `parse_qif` loop body (src/qif.py lines 69-109) on a
raw input line; `line[0]` on an empty line would raise `IndexError`. -/
def stepLine (st : QState) (line : String) : Except PyError QState :=
  match line.data with
  | [] => .error .indexError
  | firstchar :: restChars => stepData st firstchar (String.mk (trimChars restChars))

/-- `parse_qif` (src/qif.py lines 60-111) over the list of raw input lines. -/
def parse_qif (lines : List String) : Except PyError (List QifItem) :=
  (lines.foldlM stepLine { account := none, curItem := {}, items := [] }).map QState.items

/-- A CSV row as produced by `csv.DictReader`: header / value pairs. -/
abbrev Row := List (String × String)

/-- Column-header aliases for the date field (src/qif.py line 125). -/
def dateHeaders : List String := ["date", "Date", "Transaction Date"]

/-- Column-header aliases for the description field (src/qif.py line 126). -/
def descriptionHeaders : List String := ["description", "Description", "Transaction Remarks"]

/-- Column-header aliases for the withdrawal field (src/qif.py line 127). -/
def withdrawalHeaders : List String := ["Withdrawals", "Withdrawal Amount (INR )", "amount", "Amount(GBP)"]

/-- Column-header aliases for the deposit field (src/qif.py line 128). -/
def depositHeaders : List String := ["Deposits", "Deposit Amount (INR )"]

/-- Column-header aliases for the debit/credit type field (src/qif.py line 129). -/
def typeHeaders : List String := ["debitCreditCode"]

/-- `getValue` (src/qif.py lines 113-117): the value of the first header
alias present in the row, else `None`. -/
def getValue (entry : Row) : List String → Option String
  | [] => none
  | header :: rest =>
    match entry.lookup header with
    | some v => some v
    | none => getValue entry rest

/-- The withdrawal half of the no-type-column branch of the `parse_csv`
loop body (src/qif.py lines 152-154): the amount after the withdrawal
check, `none` when the value is absent or a placeholder. -/
def withdrawalAmount (line : Row) : Except PyError (Option Dec) :=
  match getValue line withdrawalHeaders with
  | some withdrawal =>
    if withdrawal ≠ "--" ∧ withdrawal ≠ "0" then
      match parseDecimal (stripCommas withdrawal) with
      | none => .error .invalidOperation
      | some q => .ok (some (Dec.neg q))
    else .ok none
  | none => .ok none

/-- The amount computation of the `parse_csv` loop body
(src/qif.py lines 144-158), returning the final `curItem.amount`.
With a type column present, a missing withdrawal value raises
`AttributeError` (`None.replace`); an unparsable decimal raises
`InvalidOperation`.  Without one, the deposit check (lines 156-158) runs
after the withdrawal check and overwrites its amount. -/
def csvAmount (line : Row) : Except PyError (Option Dec) :=
  match getValue line typeHeaders with
  | some txnType =>
    match getValue line withdrawalHeaders with
    | none => .error .attributeError
    | some amount =>
      match parseDecimal (stripCommas amount) with
      | none => .error .invalidOperation
      | some q => .ok (some (if txnType = "Debit" then Dec.neg q else q))
  | none =>
    match withdrawalAmount line with
    | .error e => .error e
    | .ok a1 =>
      match getValue line depositHeaders with
      | some deposit =>
        if deposit ≠ "--" ∧ deposit ≠ "0" then
          match parseDecimal (stripCommas deposit) with
          | none => .error .invalidOperation
          | some q => .ok (some q)
        else .ok a1
      | none => .ok a1

/-- One iteration of the `parse_csv` loop (src/qif.py lines 135-160).
`dateParse` abstracts the external collaborator `dateutil.parser.parse`;
called on `None` (no date alias present) it raises `TypeError`, and on an
unparsable string `ValueError`.  `ok none` is the skipped Pending row. -/
def parseRow (dateParse : String → Option DateTime) (line : Row) :
    Except PyError (Option QifItem) :=
  if getValue line dateHeaders = some "Pending" then .ok none
  else
    match getValue line dateHeaders with
    | none => .error .typeError
    | some dv =>
      match dateParse dv with
      | none => .error .valueError
      | some dt =>
        match csvAmount line with
        | .error e => .error e
        | .ok amount =>
          .ok (some { date := some dt, payee := getValue line descriptionHeaders, amount := amount })

/-- `parse_csv` (src/qif.py lines 119-162) over the rows produced by
`csv.DictReader`. -/
def parse_csv (dateParse : String → Option DateTime) (rows : List Row) :
    Except PyError (List QifItem) :=
  rows.foldlM (fun items row =>
    match parseRow dateParse row with
    | .error e => .error e
    | .ok none => .ok items
    | .ok (some item) => .ok (items ++ [item])) []

/-- A token of the regular-expression subset this program's rule files use:
a literal character or the wildcard dot. -/
inductive RTok where
  | dot
  | lit (c : Char)
  deriving DecidableEq, Repr

/-- A compiled pattern: each token optionally starred. -/
abbrev Regex := List (RTok × Bool)

/-- Whether a token matches one character (Python `re`: `.` matches any
character except a newline). -/
def tokMatch : RTok → Char → Bool
  | .dot, c => c != '\n'
  | .lit a, c => a == c

/-- Fuelled matcher: does the pattern match a prefix of the text?  The fuel
only guarantees structural recursion; `r.length + s.length + 1` always
suffices since every call shrinks `r.length + s.length`. -/
def matchHereF : Nat → Regex → List Char → Bool
  | 0, _, _ => false
  | _, [], _ => true
  | fuel + 1, (tok, false) :: rest, s =>
    match s with
    | [] => false
    | c :: cs => tokMatch tok c && matchHereF fuel rest cs
  | fuel + 1, (tok, true) :: rest, s =>
    matchHereF fuel rest s ||
      (match s with
       | [] => false
       | c :: cs => tokMatch tok c && matchHereF fuel ((tok, true) :: rest) cs)

/-- Pattern matches a prefix of the text. -/
def matchHere (r : Regex) (s : List Char) : Bool :=
  matchHereF (r.length + s.length + 1) r s

/-- Model of Python `pattern.search(s)` for the supported subset: the
pattern matches starting at some position of the text. -/
def searchAux (r : Regex) : List Char → Bool
  | [] => matchHere r []
  | c :: cs => matchHere r (c :: cs) || searchAux r cs

/-- `re`-style search over a string. -/
def rsearch (r : Regex) (s : String) : Bool :=
  searchAux r s.data

/-- Compile the supported pattern subset: literal characters, `.`, and a
postfix `*`; a leading `*` is a pattern-syntax error (`re.error`). -/
def compileAux : List Char → Option Regex
  | [] => some []
  | '*' :: _ => none
  | c :: '*' :: rest =>
    (compileAux rest).map (fun r => ((if c = '.' then RTok.dot else RTok.lit c), true) :: r)
  | c :: rest =>
    (compileAux rest).map (fun r => ((if c = '.' then RTok.dot else RTok.lit c), false) :: r)

/-- Model of `re.compile` on the rule patterns. -/
def re_compile (s : String) : Option Regex :=
  compileAux s.data

/-- Split a character list at its last `;` that leaves a non-empty
remainder; models the greedy groups of `re.match("^(.+);(.+)", line)`
(src/import.py line 35). -/
def lastSemiSplit : List Char → Option (List Char × List Char)
  | [] => none
  | c :: rest =>
    match lastSemiSplit rest with
    | some (pre, post) => some (c :: pre, post)
    | none => if c = ';' ∧ rest ≠ [] then some ([], rest) else none

/-- The two groups of `re.match("^(.+);(.+)", line)`: account name and
pattern text, or `none` when the line does not match. -/
def splitRule (line : String) : Option (String × String) :=
  match lastSemiSplit line.data with
  | some (pre, post) => if pre.isEmpty then none else some (String.mk pre, String.mk post)
  | none => none

/-- `readrules` (src/import.py lines 22-44) over the lines of the rules
file: blank and `#` lines are skipped, non-matching lines are logged and
ignored, a malformed pattern raises `re.error`, and well-formed rules are
appended in file order as (compiled pattern, account) pairs. -/
def readrules (lines : List String) : Except PyError (List (Regex × String)) :=
  lines.foldlM (fun rules rawLine =>
    let line := String.mk (trimChars rawLine.data)
    if line ≠ "" ∧ line.data.head? ≠ some '#' then
      match splitRule line with
      | some (ac, pattern) =>
        match re_compile pattern with
        | none => .error .reError
        | some compiled => .ok (rules ++ [(compiled, ac)])
      | none => .ok rules
    else .ok rules) []

/-- The ledger collaborator (piecash book) reduced to what the core uses:
resolving an account full name to its commodity mnemonic; `none` models the
lookup raising `KeyError`. -/
abbrev Book := String → Option String

/-- `get_ac_from_str` (src/import.py lines 69-76): first rule whose pattern
search succeeds wins, in list order; with a book available the fallback is
the `Imbalance-` account of the split account's commodity; with no book the
function falls through and returns `None`. -/
def get_ac_from_str (search_str : String) (rules : List (Regex × String))
    (book : Option Book) (split_account : Option String) : Except PyError (Option String) :=
  match rules with
  | (pattern, acpath) :: rest =>
    if rsearch pattern search_str then .ok (some acpath)
    else get_ac_from_str search_str rest book split_account
  | [] =>
    match book with
    | none => .ok none
    | some bk =>
      match split_account with
      | none => .error .keyError
      | some accName =>
        match bk accName with
        | none => .error .keyError
        | some mnemonic => .ok (some ("Imbalance-" ++ mnemonic))

/-- `getCategory` (src/import.py lines 78-79); `pattern.search(None)` on a
missing payee raises `TypeError`. -/
def getCategory (book : Book) (rules : List (Regex × String)) (item : QifItem) :
    Except PyError (Option String) :=
  match item.payee with
  | none => .error .typeError
  | some p => get_ac_from_str p rules (some book) item.account

/-- An existing posted split as `add_transaction` reads it: its
transaction's description and posting date, and its own value. -/
structure Split where
  description : String
  post_date : Date
  value : Dec
  deriving DecidableEq, Repr

/-- The transaction `add_transaction` creates (src/import.py lines 101-109):
posting date, description, and the two (account, value) splits. -/
structure NewTx where
  post_date : Date
  description : Option String
  splits : List (String × Dec)
  deriving DecidableEq, Repr

/-- Outcome of `add_transaction` on one record: skipped via the IGNORE
sentinel, skipped as a duplicate, or added (with the created transaction,
`none` under a dry run). -/
inductive AddResult where
  | skippedIgnore
  | skippedDuplicate
  | added (tx : Option NewTx)
  deriving DecidableEq, Repr

/-- The duplicate condition of src/import.py line 92: equal description,
equal date-only posting date, and exactly equal value. -/
def splitMatches (item : QifItem) (s : Split) : Bool :=
  (item.payee == some s.description) &&
  (item.date.map DateTime.date == some s.post_date) &&
  (match item.split_amount with
   | some a => Dec.eqv s.value a
   | none => false)

/-- The category resolution at the top of `add_transaction`
(src/import.py lines 82-83): an explicit `split_category` wins, otherwise
`getCategory` runs. -/
def resolvedCategory (book : Book) (rules : List (Regex × String)) (item : QifItem) :
    Except PyError (Option String) :=
  match item.split_category with
  | some c => .ok (some c)
  | none => getCategory book rules item

/-- `add_transaction` (src/import.py lines 81-109).  A missing date raises
`AttributeError` (`None.date()` / `None.strftime`), a missing category or
unknown account raises `KeyError`, and creating the transaction with a
`None` amount raises `TypeError` (`-None`); the observable error coincides
with the Python evaluation order on every input. -/
def add_transaction (book : Book) (acc : String) (acc_splits : List Split)
    (item : QifItem) (rules : List (Regex × String)) (dry_run : Bool) :
    Except PyError AddResult :=
  match resolvedCategory book rules item with
  | .error e => .error e
  | .ok cat =>
    if cat = some "IGNORE" then
      match item.date with
      | none => .error .attributeError
      | some _ => .ok .skippedIgnore
    else
      match cat with
      | none => .error .keyError
      | some c =>
        match book c with
        | none => .error .keyError
        | some _ =>
          match item.date with
          | none => .error .attributeError
          | some dt =>
            if acc_splits.any (splitMatches item) then .ok .skippedDuplicate
            else if dry_run then .ok (.added none)
            else
              match item.split_amount with
              | none => .error .typeError
              | some a =>
                .ok (.added (some { post_date := dt.date, description := item.payee,
                                    splits := [(acc, a), (c, Dec.neg a)] }))

/-- `os.path.basename` for POSIX paths. -/
def basename (fn : String) : String :=
  String.mk ((splitChar '/' fn.data).getLastD [])

/-- The first half of the `read_entries` per-item loop (src/import.py
lines 56-57): a missing `account` defaults to the default account. -/
def fillAccount (default_account : Option String) (item : QifItem) : QifItem :=
  match item.account with
  | none => { item with account := default_account }
  | some _ => item

/-- The second half of the `read_entries` per-item loop (src/import.py
lines 58-59): a missing `split_amount` defaults to `amount`. -/
def fillSplitAmount (item : QifItem) : QifItem :=
  match item.split_amount with
  | none => { item with split_amount := item.amount }
  | some _ => item

/-- `read_entries` (src/import.py lines 46-67).  `parseFile` abstracts the
parse of the named file's contents.  Returns the items and the updated
in-memory imported set (a list with set semantics).  Note the source adds
the full path `fn`, while the skip test uses `basename fn`. -/
def read_entries (parseFile : String → List QifItem) (fn : String)
    (imported : List String) (default_account : Option String) :
    List QifItem × List String :=
  if basename fn ∈ imported then ([], imported)
  else
    ((parseFile fn).map (fun item => fillSplitAmount (fillAccount default_account item)),
     if fn ∈ imported then imported else fn :: imported)

/-- The in-memory imported set after the file loop of `main`
(src/import.py lines 150-157): `read_entries` threads it through each
input file. -/
def importedAfter (parseFile : String → List QifItem) (files : List String)
    (imported : List String) (default_account : Option String) : List String :=
  files.foldl (fun imp fn => (read_entries parseFile fn imp default_account).2) imported

/-- The processed-file-cache behaviour of `main` (src/import.py lines
146-163): fold `read_entries` over the input files, then persist the final
set only when the run is not a dry run.  The first component is the final
in-memory set, the second the cache written back to disk (`none` when
nothing is written). -/
def main_model (parseFile : String → List QifItem) (files : List String)
    (imported : List String) (default_account : Option String) (dry_run : Bool) :
    List String × Option (List String) :=
  (importedAfter parseFile files imported default_account,
   if dry_run then none
   else some (importedAfter parseFile files imported default_account))

/-! Concrete inputs used by witnesses and counterexamples. -/

/-- The datetime 2020-02-01 00:00:00, as parsed from the line `D1/2/2020`. -/
def dtEx : DateTime := ⟨2020, 2, 1, 0, 0, 0⟩

/-- A ledger with a single account `Expenses:Misc` in GBP. -/
def bk0 : Book := fun s => if s = "Expenses:Misc" then some "GBP" else none

/-- A record whose explicit split category is the IGNORE sentinel. -/
def itemIgnore : QifItem :=
  { date := some dtEx, payee := some "Shop", split_category := some "IGNORE",
    split_amount := some ⟨100, 0⟩ }

/-- A record with an ordinary explicit split category. -/
def itemPlain : QifItem :=
  { date := some dtEx, payee := some "Shop", split_category := some "Expenses:Misc",
    split_amount := some ⟨10000, 2⟩ }

/-- A file parse producing one record, for exercising `read_entries`. -/
def pfOne : String → List QifItem := fun _ => [{ payee := some "X" }]

/-- A date parser recognising the single date string `d0`. -/
def dp1 : String → Option DateTime := fun s => if s = "d0" then some dtEx else none

/-- A date parser recognising nothing. -/
def dpNone : String → Option DateTime := fun _ => none

/-- A row with a debit/credit type column marking a debit. -/
def rowDebit : Row := [("Date", "d0"), ("debitCreditCode", "Debit"), ("Withdrawals", "1,234.56")]

/-- A row with only a deposit value. -/
def rowDep : Row := [("Date", "d0"), ("Deposits", "20.00")]

/-- A row whose withdrawal and deposit values are both placeholders. -/
def rowPH : Row := [("Date", "d0"), ("Withdrawals", "--"), ("Deposits", "0")]

/-! Helper lemmas about the `parse_qif` state machine. -/

/-- Each loop step either leaves the emitted records unchanged, or (on an
end-of-item line) appends the record under construction, guarded by its not
being an account-definition record. -/
lemma stepData_items_spec (s s' : QState) (c : Char) (d : String)
    (h : stepData s c d = .ok s') :
    s'.items = s.items ∨
      (c = '^' ∧ s'.items = s.items ++ [s.curItem] ∧ s.curItem.type ≠ some "Account") := by
  unfold stepData at h
  by_cases h1 : c = '\n'
  · rw [if_pos h1] at h; injection h with h; subst h; exact Or.inl rfl
  rw [if_neg h1] at h
  by_cases h2 : c = '^'
  · rw [if_pos h2] at h; injection h with h; subst h
    by_cases ht : s.curItem.type ≠ some "Account"
    · exact Or.inr ⟨h2, by simp [ht], ht⟩
    · exact Or.inl (by simp [ht])
  rw [if_neg h2] at h
  by_cases h3 : c = 'D'
  · rw [if_pos h3] at h
    repeat' split at h
    all_goals try cases h
    all_goals exact Or.inl rfl
  rw [if_neg h3] at h
  by_cases h4 : c = 'T'
  · rw [if_pos h4] at h
    repeat' split at h
    all_goals try cases h
    all_goals exact Or.inl rfl
  rw [if_neg h4] at h
  by_cases h5 : c = 'C'
  · rw [if_pos h5] at h; injection h with h; subst h; exact Or.inl rfl
  rw [if_neg h5] at h
  by_cases h6 : c = 'P'
  · rw [if_pos h6] at h; injection h with h; subst h; exact Or.inl rfl
  rw [if_neg h6] at h
  by_cases h7 : c = 'M'
  · rw [if_pos h7] at h; injection h with h; subst h; exact Or.inl rfl
  rw [if_neg h7] at h
  by_cases h8 : c = 'A'
  · rw [if_pos h8] at h; injection h with h; subst h; exact Or.inl rfl
  rw [if_neg h8] at h
  by_cases h9 : c = 'L'
  · rw [if_pos h9] at h; injection h with h; subst h; exact Or.inl rfl
  rw [if_neg h9] at h
  by_cases h10 : c = 'S'
  · rw [if_pos h10] at h; injection h with h; subst h; exact Or.inl rfl
  rw [if_neg h10] at h
  by_cases h11 : c = 'E'
  · rw [if_pos h11] at h; injection h with h; subst h; exact Or.inl rfl
  rw [if_neg h11] at h
  by_cases h12 : c = '$'
  · rw [if_pos h12] at h
    repeat' split at h
    all_goals try cases h
    all_goals exact Or.inl rfl
  rw [if_neg h12] at h
  by_cases h13 : c = 'N'
  · rw [if_pos h13] at h; injection h with h; subst h
    refine Or.inl ?_
    split <;> rfl
  rw [if_neg h13] at h
  by_cases h14 : c = '!'
  · rw [if_pos h14] at h; injection h with h; subst h; exact Or.inl rfl
  rw [if_neg h14] at h
  cases h

/-- `stepData_items_spec` lifted to raw lines. -/
lemma stepLine_items_spec (s s' : QState) (l : String) (h : stepLine s l = .ok s') :
    s'.items = s.items ∨
      (l.data.head? = some '^' ∧ s'.items = s.items ++ [s.curItem] ∧
        s.curItem.type ≠ some "Account") := by
  cases hl : l.data with
  | nil => rw [stepLine, hl] at h; cases h
  | cons c cs =>
    rw [stepLine, hl] at h
    rcases stepData_items_spec s s' c (String.mk (trimChars cs)) h with h1 | ⟨hcar, h2⟩
    · exact Or.inl h1
    · exact Or.inr ⟨by simp [hl, hcar], h2⟩

/-- Splitting the `parse_qif` fold across a list append. -/
lemma foldlM_stepLine_append (ls1 ls2 : List String) (s : QState) :
    List.foldlM stepLine s (ls1 ++ ls2) =
      match List.foldlM stepLine s ls1 with
      | .error e => .error e
      | .ok s1 => List.foldlM stepLine s1 ls2 := by
  induction ls1 generalizing s with
  | nil => rfl
  | cons a rest ih =>
    show (stepLine s a >>= fun s1 => List.foldlM stepLine s1 (rest ++ ls2)) =
      match (stepLine s a >>= fun s1 => List.foldlM stepLine s1 rest) with
      | .error e => .error e
      | .ok s1 => List.foldlM stepLine s1 ls2
    cases hstep : stepLine s a with
    | error e => rfl
    | ok s1 => exact ih s1

/-- A run of lines with no end-of-item marker emits nothing new. -/
lemma foldlM_items_of_no_caret (suffix : List String) (s s' : QState)
    (hsuffix : ∀ l ∈ suffix, l.data.head? ≠ some '^')
    (h : List.foldlM stepLine s suffix = .ok s') : s'.items = s.items := by
  induction suffix generalizing s with
  | nil => injection h with h; subst h; rfl
  | cons a rest ih =>
    have ha := hsuffix a (List.mem_cons_self a rest)
    replace h : (stepLine s a >>= fun s1 => List.foldlM stepLine s1 rest) = .ok s' := h
    cases hstep : stepLine s a with
    | error e => rw [hstep] at h; cases h
    | ok s1 =>
      rw [hstep] at h
      have hrest : List.foldlM stepLine s1 rest = .ok s' := h
      have h1 : s1.items = s.items := by
        rcases stepLine_items_spec s s1 a hstep with h1 | ⟨hcar, _⟩
        · exact h1
        · exact absurd hcar ha
      rw [ih s1 (fun l hl => hsuffix l (List.mem_cons_of_mem a hl)) hrest, h1]

/-- The emitted records never include an account-definition record. -/
lemma foldlM_no_account (lines : List String) (s s' : QState)
    (h : List.foldlM stepLine s lines = .ok s')
    (hinv : ∀ item ∈ s.items, item.type ≠ some "Account") :
    ∀ item ∈ s'.items, item.type ≠ some "Account" := by
  induction lines generalizing s with
  | nil => injection h with h; subst h; exact hinv
  | cons a rest ih =>
    replace h : (stepLine s a >>= fun s1 => List.foldlM stepLine s1 rest) = .ok s' := h
    cases hstep : stepLine s a with
    | error e => rw [hstep] at h; cases h
    | ok s1 =>
      rw [hstep] at h
      refine ih s1 h ?_
      rcases stepLine_items_spec s s1 a hstep with h1 | ⟨_, h2, hguard⟩
      · rw [h1]; exact hinv
      · rw [h2]
        intro item hmem
        rcases List.mem_append.mp hmem with hm | hm
        · exact hinv item hm
        · rw [List.mem_singleton.mp hm]; exact hguard

/-! Helper lemmas about the imported-set handling of src/import.py. -/

/-- Membership facts about the set `read_entries` returns: it keeps every
existing element and adds at most the processed path. -/
lemma read_entries_snd_mem (parseFile : String → List QifItem) (fn : String)
    (imported : List String) (d : Option String) (x : String) :
    (x ∈ imported → x ∈ (read_entries parseFile fn imported d).2)
    ∧ (x ∈ (read_entries parseFile fn imported d).2 → x ∈ imported ∨ x = fn) := by
  unfold read_entries
  by_cases h1 : basename fn ∈ imported
  · rw [if_pos h1]
    exact ⟨fun h => h, fun h => Or.inl h⟩
  · rw [if_neg h1]
    by_cases h2 : fn ∈ imported
    · rw [if_pos h2]
      exact ⟨fun h => h, fun h => Or.inl h⟩
    · rw [if_neg h2]
      refine ⟨fun h => List.mem_cons_of_mem fn h, fun h => ?_⟩
      rcases List.mem_cons.mp h with hx | hx
      · exact Or.inr hx
      · exact Or.inl hx

/-- `read_entries_snd_mem` folded over a whole run's file list. -/
lemma importedAfter_mem (parseFile : String → List QifItem) (files : List String)
    (d : Option String) :
    ∀ (imported : List String) (x : String),
      (x ∈ imported → x ∈ importedAfter parseFile files imported d)
      ∧ (x ∈ importedAfter parseFile files imported d → x ∈ imported ∨ x ∈ files) := by
  induction files with
  | nil => intro imported x; exact ⟨fun h => h, fun h => Or.inl h⟩
  | cons fn rest ih =>
    intro imported x
    have hstep := read_entries_snd_mem parseFile fn imported d x
    have hrest := ih (read_entries parseFile fn imported d).2 x
    constructor
    · intro hx
      exact hrest.1 (hstep.1 hx)
    · intro hx
      rcases hrest.2 hx with hx | hx
      · rcases hstep.2 hx with hx | hx
        · exact Or.inl hx
        · exact Or.inr (by rw [hx]; exact List.mem_cons_self fn rest)
      · exact Or.inr (List.mem_cons_of_mem fn hx)

/-! The claims. -/

/-- C1 (amended): for a record whose resolved split category is not the
IGNORE sentinel and resolves to an existing account, with a date and a
split amount present, `add_transaction` skips the record exactly when some
existing split has the transaction description equal to the record's payee,
the posting date equal to the record's date with the time of day discarded,
and a value exactly equal to the record's resolved split amount; otherwise
it proceeds to post, creating (when the run is not a dry run) the
two-split transaction for the record.  The original biconditional is
refuted by `add_transaction_skips_ignore_without_duplicate`: an
IGNORE-categorised record is skipped with no matching split. -/
theorem add_transaction_duplicate_skip
    (book : Book) (acc : String) (acc_splits : List Split) (item : QifItem)
    (rules : List (Regex × String)) (dry_run : Bool) (c mn : String) (dt : DateTime) (a : Dec)
    (hcat : resolvedCategory book rules item = .ok (some c))
    (hcign : c ≠ "IGNORE")
    (hacc : book c = some mn)
    (hdate : item.date = some dt)
    (hamt : item.split_amount = some a) :
    (add_transaction book acc acc_splits item rules dry_run = .ok .skippedDuplicate
        ↔ acc_splits.any (splitMatches item) = true)
    ∧ (acc_splits.any (splitMatches item) = false →
        add_transaction book acc acc_splits item rules dry_run =
          .ok (.added (if dry_run then none
            else some { post_date := dt.date, description := item.payee,
                        splits := [(acc, a), (c, Dec.neg a)] }))) := by
  by_cases hany : acc_splits.any (splitMatches item) = true
  · refine ⟨?_, ?_⟩
    · simp [add_transaction, hcat, hcign, hacc, hdate, hamt, hany]
    · intro hfalse; rw [hany] at hfalse; cases hfalse
  · rw [Bool.not_eq_true] at hany
    refine ⟨?_, fun _ => ?_⟩
    · cases dry_run <;> simp [add_transaction, hcat, hcign, hacc, hdate, hamt, hany]
    · cases dry_run <;> simp [add_transaction, hcat, hcign, hacc, hdate, hamt, hany]

/-- C1 witness: on an empty split list a plainly categorised record is
posted with the expected two splits. -/
theorem add_transaction_duplicate_skip_witness :
    add_transaction bk0 "Assets:Bank" [] itemPlain [] false =
      .ok (.added (some { post_date := ⟨2020, 2, 1⟩, description := some "Shop",
                          splits := [("Assets:Bank", ⟨10000, 2⟩),
                                     ("Expenses:Misc", Dec.neg ⟨10000, 2⟩)] })) :=
  (add_transaction_duplicate_skip bk0 "Assets:Bank" [] itemPlain [] false
      "Expenses:Misc" "GBP" dtEx ⟨10000, 2⟩
      (by rfl) (by decide) (by rfl) (by rfl) (by rfl)).2 (by rfl)

/-- C1 counterexample: a record whose split category is the IGNORE sentinel
is skipped (nothing is posted) although no existing split matches it, so
"skips if and only if a duplicate exists" fails as stated. -/
theorem add_transaction_skips_ignore_without_duplicate :
    add_transaction bk0 "Assets:Bank" [] itemIgnore [] false = .ok .skippedIgnore
    ∧ ([] : List Split).any (splitMatches itemIgnore) = false := ⟨rfl, rfl⟩

/-- C2: `read_entries` does skip a file whose base name is in the imported
set (third conjunct), but after processing `bank/stmt.qif` the identifier
added to the set is the full path, not the base name (first conjunct), so
re-running on the same path parses the file again (second conjunct),
contrary to the spec's base-name `ImportedFileSet`. -/
theorem read_entries_cache_full_path :
    (read_entries pfOne "bank/stmt.qif" [] none).2 = ["bank/stmt.qif"]
    ∧ (read_entries pfOne "bank/stmt.qif" ["bank/stmt.qif"] none).1 ≠ []
    ∧ (read_entries pfOne "stmt.qif" ["stmt.qif"] none).1 = [] := by
  refine ⟨rfl, ?_, rfl⟩
  decide

/-- C3: `get_ac_from_str` returns the account of the first rule in list
order whose pattern search succeeds, and `readrules` preserves the
top-to-bottom order of the rules source, so on rules
`Income:Job;.*SALARY.*` then `Expenses:Misc;.*` the text MONTHLY SALARY
resolves to `Income:Job`. -/
theorem get_ac_first_match :
    (∀ (s : String) (rules : List (Regex × String)),
        get_ac_from_str s rules none none =
          .ok ((rules.find? (fun r => rsearch r.1 s)).map Prod.snd))
    ∧ ((readrules ["Income:Job;.*SALARY.*", "Expenses:Misc;.*"]).map
          (fun rs => get_ac_from_str "MONTHLY SALARY" rs none none)
        = .ok (.ok (some "Income:Job"))) := by
  refine ⟨?_, by rfl⟩
  intro s rules
  induction rules with
  | nil => rfl
  | cons r rest ih =>
    cases r with
    | mk pattern acpath =>
      rw [get_ac_from_str, List.find?]
      by_cases h : rsearch pattern s
      · simp [h]
      · simp only [h, Bool.false_eq_true, if_false, ih]

/-- C4: with a debit/credit type column the amount is the withdrawal value
(thousands separators removed), negated exactly when the marker is Debit;
without one, a non-placeholder withdrawal gives a negative amount, a
non-placeholder deposit gives a positive amount, and when both are present
the deposit value wins. -/
theorem csv_amount_rules :
    (∀ (row : Row) (t w : String) (q : Dec),
        getValue row typeHeaders = some t →
        getValue row withdrawalHeaders = some w →
        parseDecimal (stripCommas w) = some q →
        csvAmount row = .ok (some (if t = "Debit" then Dec.neg q else q)))
    ∧ (∀ (row : Row) (w : String) (q : Dec),
        getValue row typeHeaders = none →
        getValue row withdrawalHeaders = some w →
        w ≠ "--" → w ≠ "0" →
        parseDecimal (stripCommas w) = some q →
        (getValue row depositHeaders = none ∨ getValue row depositHeaders = some "--"
          ∨ getValue row depositHeaders = some "0") →
        csvAmount row = .ok (some (Dec.neg q)))
    ∧ (∀ (row : Row) (d : String) (q : Dec),
        getValue row typeHeaders = none →
        (getValue row withdrawalHeaders = none
          ∨ getValue row withdrawalHeaders = some "--"
          ∨ getValue row withdrawalHeaders = some "0"
          ∨ ∃ w qw, getValue row withdrawalHeaders = some w
              ∧ parseDecimal (stripCommas w) = some qw) →
        getValue row depositHeaders = some d →
        d ≠ "--" → d ≠ "0" →
        parseDecimal (stripCommas d) = some q →
        csvAmount row = .ok (some q)) := by
  refine ⟨?_, ?_, ?_⟩
  · intro row t w q ht hw hq
    simp [csvAmount, ht, hw, hq]
  · intro row w q ht hw hne1 hne2 hq hdep
    rcases hdep with h | h | h <;>
      simp [csvAmount, withdrawalAmount, ht, hw, hne1, hne2, hq, h]
  · intro row d q ht hwdisj hd hne1 hne2 hq
    rcases hwdisj with h | h | h | ⟨w, qw, hw, hqw⟩ <;>
      simp [csvAmount, withdrawalAmount, ht, hd, hne1, hne2, hq, *] <;>
      (try (rcases em (¬w = "--" ∧ ¬w = "0") with hc | hc <;> simp [hc]))

/-- C4 witness: a Debit-marked withdrawal of 1,234.56 parses to -1234.56,
and a deposit of 20.00 with no withdrawal parses to +20.00. -/
theorem csv_amount_rules_witness :
    csvAmount rowDebit = .ok (some (Dec.neg ⟨123456, 2⟩))
    ∧ csvAmount rowDep = .ok (some ⟨2000, 2⟩) :=
  ⟨csv_amount_rules.1 rowDebit "Debit" "1,234.56" ⟨123456, 2⟩ (by rfl) (by rfl) (by rfl),
   csv_amount_rules.2.2 rowDep "20.00" ⟨2000, 2⟩ (by rfl) (Or.inl (by rfl)) (by rfl)
     (by decide) (by decide) (by rfl)⟩

/-- C5: appending input lines that contain no end-of-item marker line does
not change the parse result, so a trailing record in progress that is
never terminated is discarded while all terminated records are kept in
input order. -/
theorem parse_qif_terminator_discipline (lines suffix : List String) (r : List QifItem)
    (hsuffix : ∀ l ∈ suffix, l.data.head? ≠ some '^')
    (hok : parse_qif (lines ++ suffix) = .ok r) :
    parse_qif lines = .ok r := by
  unfold parse_qif at hok ⊢
  cases hfull : List.foldlM stepLine { account := none, curItem := {}, items := [] } (lines ++ suffix) with
  | error e => rw [hfull] at hok; cases hok
  | ok sFull =>
    rw [hfull] at hok
    replace hok : Except.ok sFull.items = Except.ok r := hok
    injection hok with hok
    rw [foldlM_stepLine_append] at hfull
    cases hpre : List.foldlM stepLine { account := none, curItem := {}, items := [] } lines with
    | error e => rw [hpre] at hfull; cases hfull
    | ok s1 =>
      rw [hpre] at hfull
      have hsuf : List.foldlM stepLine s1 suffix = .ok sFull := hfull
      have hitems := foldlM_items_of_no_caret suffix s1 sFull hsuffix hsuf
      show Except.ok s1.items = Except.ok r
      rw [← hok, ← hitems]

/-- C5 witness: dropping an untermimated trailing payee line leaves the one
terminated record. -/
theorem parse_qif_terminator_discipline_witness :
    parse_qif ["D1/2/2020", "PShop", "^"] =
      .ok [{ date := some ⟨2020, 2, 1, 0, 0, 0⟩, payee := some "Shop" }] :=
  parse_qif_terminator_discipline ["D1/2/2020", "PShop", "^"] ["PLeftover"]
    [{ date := some ⟨2020, 2, 1, 0, 0, 0⟩, payee := some "Shop" }] (by decide) (by rfl)

/-- C6: account-definition pseudo-records never appear in the output; an
N-tag line inside an account-definition record updates the carried account
name to the stripped line content; and the record started after an
end-of-item marker is fresh with its account field seeded from the carried
account name. -/
theorem parse_qif_account_pseudo_records :
    (∀ (lines : List String) (r : List QifItem), parse_qif lines = .ok r →
        ∀ item ∈ r, item.type ≠ some "Account")
    ∧ (∀ (st : QState) (l : String), l.data.head? = some 'N' →
        st.curItem.type = some "Account" →
        stepLine st l = .ok { st with account := some (String.mk (trimChars l.data.tail)) })
    ∧ (∀ (st : QState) (l : String) (st2 : QState), l.data.head? = some '^' →
        stepLine st l = .ok st2 →
        st2.curItem = ({ account := st.account } : QifItem)) := by
  refine ⟨?_, ?_, ?_⟩
  · intro lines r hok item hmem
    unfold parse_qif at hok
    cases hfull : List.foldlM stepLine { account := none, curItem := {}, items := [] } lines with
    | error e => rw [hfull] at hok; cases hok
    | ok sFin =>
      rw [hfull] at hok
      replace hok : Except.ok sFin.items = Except.ok r := hok
      injection hok with hok
      subst hok
      exact foldlM_no_account lines _ sFin hfull (by intro i hi; cases hi) item hmem
  · intro st l hN htype
    cases hl : l.data with
    | nil => rw [hl] at hN; cases hN
    | cons c cs =>
      rw [hl] at hN
      injection hN with hN
      subst hN
      rw [stepLine, hl]
      have hstep : stepData st 'N' (String.mk (trimChars cs)) =
          .ok (if st.curItem.type = some "Account"
               then { st with account := some (String.mk (trimChars cs)) } else st) := rfl
      show stepData st 'N' (String.mk (trimChars cs)) =
        .ok { st with account := some (String.mk (trimChars ('N' :: cs).tail)) }
      rw [hstep, if_pos htype]
      rfl
  · intro st l st2 hC hstep
    cases hl : l.data with
    | nil => rw [hl] at hC; cases hC
    | cons c cs =>
      rw [hl] at hC
      injection hC with hC
      subst hC
      rw [stepLine, hl] at hstep
      replace hstep : stepData st '^' (String.mk (trimChars cs)) = .ok st2 := hstep
      have hcar : stepData st '^' (String.mk (trimChars cs)) =
          .ok { account := st.account, curItem := { account := st.account },
                items := if st.curItem.type ≠ some "Account"
                         then st.items ++ [st.curItem] else st.items } := rfl
      rw [hcar] at hstep
      injection hstep with hstep
      rw [← hstep]

/-- C6 witness: an account definition record is suppressed while carrying
its name into later records, the N-tag updates the carried name, and the
record after a marker starts from the carried account name. -/
theorem parse_qif_account_pseudo_records_witness :
    ({ account := some "Assets:Bank", payee := some "Shop" } : QifItem).type ≠ some "Account"
    ∧ stepLine { account := none, curItem := { type := some "Account" }, items := [] } "NAssets:Bank"
        = .ok { account := some "Assets:Bank", curItem := { type := some "Account" }, items := [] }
    ∧ ({ account := some "X", curItem := { account := some "X" },
         items := [{ payee := some "P" }] } : QState).curItem = ({ account := some "X" } : QifItem) :=
  ⟨parse_qif_account_pseudo_records.1 ["!Account", "NAssets:Bank", "^", "PShop", "^"]
      [{ account := some "Assets:Bank", payee := some "Shop" }] (by rfl)
      { account := some "Assets:Bank", payee := some "Shop" } (by decide),
   parse_qif_account_pseudo_records.2.1
      { account := none, curItem := { type := some "Account" }, items := [] } "NAssets:Bank"
      (by rfl) (by rfl),
   parse_qif_account_pseudo_records.2.2
      { account := some "X", curItem := { payee := some "P" }, items := [] } "^"
      { account := some "X", curItem := { account := some "X" }, items := [{ payee := some "P" }] }
      (by rfl) (by rfl)⟩

/-- C7 (amended): in a dry run nothing is written back to the persisted
cache, and the final in-memory imported set contains the loaded set plus at
most this run's input file paths; the in-memory set is, however, mutated
during the dry run, as `dry_run_mutates_in_memory_set` shows. -/
theorem dry_run_cache_not_persisted (parseFile : String → List QifItem)
    (files imported : List String) (d : Option String) :
    (main_model parseFile files imported d true).2 = none
    ∧ (∀ x ∈ imported, x ∈ (main_model parseFile files imported d true).1)
    ∧ (∀ x ∈ (main_model parseFile files imported d true).1, x ∈ imported ∨ x ∈ files) := by
  refine ⟨rfl, ?_, ?_⟩
  · intro x hx
    exact (importedAfter_mem parseFile files d imported x).1 hx
  · intro x hx
    exact (importedAfter_mem parseFile files d imported x).2 hx

/-- C7 witness: a dry run over one file persists nothing and keeps the
loaded entry in memory. -/
theorem dry_run_cache_not_persisted_witness :
    (main_model pfOne ["a.qif"] ["old"] none true).2 = none
    ∧ "old" ∈ (main_model pfOne ["a.qif"] ["old"] none true).1 :=
  ⟨(dry_run_cache_not_persisted pfOne ["a.qif"] ["old"] none).1,
   (dry_run_cache_not_persisted pfOne ["a.qif"] ["old"] none).2.1 "old" (by decide)⟩

/-- C7 counterexample: a dry run over `a.qif` starting from the empty
loaded set leaves the in-memory set equal to `[a.qif]`, not the loaded set,
so the in-memory collection is not left identical during a dry run. -/
theorem dry_run_mutates_in_memory_set :
    (main_model pfOne ["a.qif"] [] none true).1 = ["a.qif"]
    ∧ ["a.qif"] ≠ ([] : List String) := ⟨rfl, by decide⟩

/-- C8: on a line with an unrecognized first-character tag, `parse_qif`
aborts with a `TypeError` (the Python-2 diagnostic statement evaluated
under Python 3) instead of skipping the line: the input with the line
removed parses fine. -/
theorem parse_qif_unknown_line_aborts :
    parse_qif ["XUnknown", "^"] = .error .typeError
    ∧ parse_qif ["^"] = .ok [{}] := ⟨rfl, rfl⟩

/-- C9 (amended): every field resolves to the first present header alias;
for the description, type, withdrawal and deposit fields (without a type
column) absence of all aliases leaves the field empty without an error;
but absence of every date alias makes `parse_csv` raise a `TypeError`
(`dateutil.parser.parse(None)`), refuting the original claim for the date
field (see `csv_missing_date_errors`). -/
theorem csv_field_resolution :
    (∀ (entry : Row) (opts : List String),
        getValue entry opts =
          (opts.find? (fun h => (entry.lookup h).isSome)).bind (fun h => entry.lookup h))
    ∧ (∀ (dp : String → Option DateTime) (row : Row) (d : String) (dt : DateTime),
        getValue row dateHeaders = some d → d ≠ "Pending" → dp d = some dt →
        getValue row typeHeaders = none →
        getValue row withdrawalHeaders = none →
        getValue row depositHeaders = none →
        parseRow dp row =
          .ok (some { date := some dt, payee := getValue row descriptionHeaders,
                      amount := none }))
    ∧ (∀ (dp : String → Option DateTime) (row : Row),
        getValue row dateHeaders = none → parseRow dp row = .error .typeError) := by
  refine ⟨?_, ?_, ?_⟩
  · intro entry opts
    induction opts with
    | nil => rfl
    | cons hO rest ih =>
      cases hlook : entry.lookup hO with
      | some v => simp [getValue, hlook]
      | none => simp [getValue, hlook, ih]
  · intro dp row d dt hd hp hdt ht hw hdep
    simp [parseRow, hd, hp, hdt, csvAmount, withdrawalAmount, ht, hw, hdep]
  · intro dp row hd
    simp [parseRow, hd]

/-- C9 witness: a row with only a date column yields a record with empty
description and amount. -/
theorem csv_field_resolution_witness :
    parseRow dp1 [("Date", "d0")] =
      .ok (some { date := some dtEx, payee := none, amount := none }) :=
  csv_field_resolution.2.1 dp1 [("Date", "d0")] "d0" dtEx
    (by rfl) (by decide) (by rfl) (by rfl) (by rfl) (by rfl)

/-- C9 counterexample: a row with a description but no date alias makes
`parse_csv` raise instead of leaving the date empty. -/
theorem csv_missing_date_errors :
    parse_csv dpNone [[("Description", "coffee")]] = .error .typeError := rfl

/-- C10: a row without a type column whose withdrawal and deposit values
are each absent or a placeholder is still emitted, with a null amount. -/
theorem csv_placeholder_row_emitted
    (dp : String → Option DateTime) (row : Row) (d : String) (dt : DateTime)
    (hd : getValue row dateHeaders = some d) (hp : d ≠ "Pending") (hdt : dp d = some dt)
    (ht : getValue row typeHeaders = none)
    (hw : getValue row withdrawalHeaders = none ∨ getValue row withdrawalHeaders = some "--"
      ∨ getValue row withdrawalHeaders = some "0")
    (hdep : getValue row depositHeaders = none ∨ getValue row depositHeaders = some "--"
      ∨ getValue row depositHeaders = some "0") :
    parse_csv dp [row] =
      .ok [{ date := some dt, payee := getValue row descriptionHeaders, amount := none }] := by
  have hrow : parseRow dp row =
      .ok (some { date := some dt, payee := getValue row descriptionHeaders,
                  amount := none }) := by
    rcases hw with h1 | h1 | h1 <;> rcases hdep with h2 | h2 | h2 <;>
      simp [parseRow, hd, hp, hdt, csvAmount, withdrawalAmount, ht, h1, h2]
  simp [parse_csv, hrow]

/-- C10 witness: a row with withdrawal `--` and deposit `0` is emitted with
a null amount. -/
theorem csv_placeholder_row_emitted_witness :
    parse_csv dp1 [rowPH] = .ok [{ date := some dtEx, payee := none, amount := none }] :=
  csv_placeholder_row_emitted dp1 rowPH "d0" dtEx (by rfl) (by decide) (by rfl) (by rfl)
    (Or.inr (Or.inl (by rfl))) (Or.inr (Or.inr (by rfl)))
